import Mathlib

/-!
Verification of the list-management module of the Session40 repository
(`src/client/src/pages/Products.tsx`, holding the Products screen and the
Categories screen).  JavaScript strings are modelled as `List Char`,
`String.prototype.toLowerCase` as `Char.toLower` mapped over the list,
`String.prototype.includes` as list-infix testing, and the empty-string
status filter as `Option`.
-/

/-- JavaScript `s.toLowerCase()` on a string modelled as a character list. -/
def lower (s : List Char) : List Char := s.map Char.toLower

/-- Helper for `strIncludes`: does the second list occur at the start of the
first (JS `String.prototype.startsWith`)? -/
def strStartsWith : List Char → List Char → Bool
  | _, [] => true
  | [], _ :: _ => false
  | c :: t, d :: m => c == d && strStartsWith t m

/-- JavaScript `h.includes(n)`: does `n` occur contiguously inside `h`? -/
def strIncludes : List Char → List Char → Bool
  | [], n => n.isEmpty
  | c :: t, n => strStartsWith (c :: t) n || strIncludes t n

theorem strStartsWith_iff (h n : List Char) :
    strStartsWith h n = true ↔ n <+: h := by
  induction h generalizing n with
  | nil => cases n <;> simp [strStartsWith]
  | cons c t ih =>
    cases n with
    | nil => simp [strStartsWith]
    | cons d m =>
      simp only [strStartsWith, Bool.and_eq_true, beq_iff_eq, ih,
        List.cons_prefix_cons]
      exact and_congr_left fun _ => eq_comm

theorem strIncludes_iff (h n : List Char) :
    strIncludes h n = true ↔ n <:+: h := by
  induction h with
  | nil => cases n <;> simp [strIncludes]
  | cons c t ih =>
    simp [strIncludes, strStartsWith_iff, ih, List.infix_cons_iff]

/-- Page size fixed to 5 in both screens (lines 40 and 354). -/
def pageSize : Nat := 5

/-- The text-filter predicate of both screens:
`search ? hay.toLowerCase().includes(search.toLowerCase()) : true`,
an empty search string being falsy in JavaScript. -/
def textMatch (search hay : List Char) : Bool :=
  if search.isEmpty then true else strIncludes (lower hay) (lower search)

/-- The status-filter predicate of both screens:
`statusFilter ? r.status === statusFilter : true`, the empty-string filter
(falsy) modelled as `none`. -/
def statusMatch {α : Type} [BEq α] (sf : Option α) (st : α) : Bool :=
  match sf with
  | some f => st == f
  | none => true

/-- The `paged` memo of both screens (lines 68-71 and 375-378):
`filtered.slice((page-1)*pageSize, (page-1)*pageSize + pageSize)`,
where `Array.prototype.slice` on an in-range window is drop-then-take. -/
def paged {α : Type} (items : List α) (page size : Nat) : List α :=
  ((items.drop ((page - 1) * size)).take size)

namespace Products

/-- The `ProductStatus` union type (line 17). -/
inductive ProductStatus : Type where
  | active : ProductStatus
  | inactive : ProductStatus
deriving DecidableEq, Repr

/-- The `ProductRow` record (lines 19-27). -/
structure ProductRow : Type where
  id : List Char
  code : List Char
  name : List Char
  category : List Char
  price : Int
  image : List Char
  status : ProductStatus
deriving DecidableEq, Repr

/-- The `filtered` memo of the Products screen (lines 60-66): a text filter
(`search ? (r.name + r.code).toLowerCase().includes(search.toLowerCase()) : true`,
an empty search string being falsy) chained with a status filter
(`statusFilter ? r.status === statusFilter : true`). -/
def filtered (rows : List ProductRow) (search : List Char)
    (statusFilter : Option ProductStatus) : List ProductRow :=
  (rows.filter (fun r => textMatch search (r.name ++ r.code))).filter
    (fun r => statusMatch statusFilter r.status)

end Products

namespace Categories

/-- The `CategoryStatus` union type (line 340). -/
inductive CategoryStatus : Type where
  | active : CategoryStatus
  | inactive : CategoryStatus
deriving DecidableEq, Repr

/-- The `CategoryRow` record (lines 342-347). -/
structure CategoryRow : Type where
  id : List Char
  name : List Char
  description : List Char
  status : CategoryStatus
deriving DecidableEq, Repr

/-- The `filtered` memo of the Categories screen (lines 367-373): text filter
over `r.name` only, chained with the same status filter. -/
def filtered (rows : List CategoryRow) (search : List Char)
    (statusFilter : Option CategoryStatus) : List CategoryRow :=
  (rows.filter (fun r => textMatch search r.name)).filter
    (fun r => statusMatch statusFilter r.status)

end Categories

theorem statusMatch_iff {α : Type} [BEq α] [LawfulBEq α] (sf : Option α) (st : α) :
    statusMatch sf st = true ↔ sf = none ∨ sf = some st := by
  cases sf with
  | none => simp [statusMatch]
  | some f =>
    show (st == f) = true ↔ some f = none ∨ some f = some st
    rw [beq_iff_eq]
    constructor
    · intro h
      subst h
      exact Or.inr rfl
    · rintro (h | h)
      · exact Option.noConfusion h
      · injection h with h
        exact h.symm

theorem textMatch_iff (s hay : List Char) :
    textMatch s hay = true ↔ lower s <:+: lower hay := by
  cases s with
  | nil => simp [textMatch, lower]
  | cons c t => simp [textMatch, strIncludes_iff]

theorem mem_filtered_products (rows : List Products.ProductRow) (s : List Char)
    (sf : Option Products.ProductStatus) (r : Products.ProductRow) :
    r ∈ Products.filtered rows s sf ↔
      r ∈ rows ∧ (lower s <:+: lower (r.name ++ r.code)) ∧
        (sf = none ∨ sf = some r.status) := by
  unfold Products.filtered
  simp only [List.mem_filter, textMatch_iff, statusMatch_iff, and_assoc]

theorem mem_filtered_categories (rows : List Categories.CategoryRow) (s : List Char)
    (sf : Option Categories.CategoryStatus) (r : Categories.CategoryRow) :
    r ∈ Categories.filtered rows s sf ↔
      r ∈ rows ∧ (lower s <:+: lower r.name) ∧
        (sf = none ∨ sf = some r.status) := by
  unfold Categories.filtered
  simp only [List.mem_filter, textMatch_iff, statusMatch_iff, and_assoc]

/-- C1: for every collection, search text `s` and status filter `f`, the
filter engine returns an order-preserving subsequence of the collection
containing exactly those records whose searchable text (name and code for
Products, name for Categories) contains `s` case-insensitively and, when `f`
is non-empty, whose status equals `f`; an empty `s` and an empty `f` each
match every record, and the two filters combine by logical AND. -/
theorem c1_filter_engine
    (rowsP : List Products.ProductRow) (rowsC : List Categories.CategoryRow)
    (s : List Char) (fP : Option Products.ProductStatus)
    (fC : Option Categories.CategoryStatus) :
    ((Products.filtered rowsP s fP).Sublist rowsP ∧
      ∀ r, r ∈ Products.filtered rowsP s fP ↔
        r ∈ rowsP ∧ (lower s <:+: lower (r.name ++ r.code)) ∧
          (fP = none ∨ fP = some r.status)) ∧
    ((Categories.filtered rowsC s fC).Sublist rowsC ∧
      ∀ r, r ∈ Categories.filtered rowsC s fC ↔
        r ∈ rowsC ∧ (lower s <:+: lower r.name) ∧
          (fC = none ∨ fC = some r.status)) :=
  ⟨⟨(List.filter_sublist _).trans (List.filter_sublist _),
      fun r => mem_filtered_products rowsP s fP r⟩,
    ⟨(List.filter_sublist _).trans (List.filter_sublist _),
      fun r => mem_filtered_categories rowsC s fC r⟩⟩

namespace Products

/-- The form values of the Products modal, TypeScript type
`Omit<ProductRow, "id" | "image">` (line 148). -/
structure ProductDraft : Type where
  code : List Char
  name : List Char
  category : List Char
  price : Int
  status : ProductStatus
deriving DecidableEq, Repr

/-- The record built at the top of `onSubmit` (lines 149-154):
`{ id: editing?.id ?? uuidv4(), ...values, image: imageUrl,
price: Number(values.price) }`; `Number` applied to the already-numeric
`values.price` is the identity. -/
def mkProduct (id : List Char) (values : ProductDraft) (imageUrl : List Char) :
    ProductRow :=
  { id := id, code := values.code, name := values.name,
    category := values.category, price := values.price,
    image := imageUrl, status := values.status }

/-- Local reconciliation of a successful create (line 167):
`setRows(prev => [...prev, next])`. -/
def addRow (prev : List ProductRow) (next : ProductRow) : List ProductRow :=
  prev ++ [next]

/-- Local reconciliation of a successful update (lines 160-162):
`setRows(prev => prev.map(r => r.id === editing.id ? next : r))`. -/
def updateRow (prev : List ProductRow) (id : List Char) (next : ProductRow) :
    List ProductRow :=
  prev.map (fun r => if r.id == id then next else r)

/-- Local reconciliation of a successful delete (line 142):
`setRows(prev => prev.filter(r => r.id !== id))`. -/
def removeRow (prev : List ProductRow) (id : List Char) : List ProductRow :=
  prev.filter (fun r => r.id != id)

end Products

namespace Categories

/-- The form values of the Categories modal, TypeScript type
`Omit<CategoryRow, "id">` (line 424). -/
structure CategoryDraft : Type where
  name : List Char
  description : List Char
  status : CategoryStatus
deriving DecidableEq, Repr

/-- The record built at the top of `onSubmit` (lines 425-428):
`{ id: editing?.id ?? uuidv4(), ...values }`. -/
def mkCategory (id : List Char) (values : CategoryDraft) : CategoryRow :=
  { id := id, name := values.name, description := values.description,
    status := values.status }

/-- Local reconciliation of a successful create (line 441):
`setRows(prev => [...prev, next])`. -/
def addRow (prev : List CategoryRow) (next : CategoryRow) : List CategoryRow :=
  prev ++ [next]

/-- Local reconciliation of a successful update (lines 434-436):
`setRows(prev => prev.map(r => r.id === editing.id ? next : r))`. -/
def updateRow (prev : List CategoryRow) (id : List Char) (next : CategoryRow) :
    List CategoryRow :=
  prev.map (fun r => if r.id == id then next else r)

/-- Local reconciliation of a successful delete (lines 419-421):
`setRows(prev => prev.filter(r => r.id !== id))`. -/
def removeRow (prev : List CategoryRow) (id : List Char) : List CategoryRow :=
  prev.filter (fun r => r.id != id)

end Categories

theorem filter_append_single {α : Type} (p : α → Bool) (l : List α) (x : α)
    (hl : ∀ a ∈ l, p a = false) (hx : p x = true) :
    (l ++ [x]).filter p = [x] := by
  rw [List.filter_append, List.filter_eq_nil_iff.mpr (fun a ha => by simp [hl a ha])]
  simp [hx]

theorem pages_flatten {α : Type} (size : Nat) :
    ∀ (n : Nat) (l : List α), l.length ≤ size * n →
      ((List.range n).map (fun i => (l.drop (i * size)).take size)).flatten = l := by
  intro n
  induction n with
  | zero =>
    intro l hl
    have hnil : l = [] := by
      cases l with
      | nil => rfl
      | cons a t => simp at hl
    subst hnil
    rfl
  | succ n ih =>
    intro l hl
    rw [List.range_succ_eq_map, List.map_cons, List.map_map, List.flatten_cons]
    have h1 : ((fun i => (l.drop (i * size)).take size) ∘ Nat.succ) =
        fun i => ((l.drop size).drop (i * size)).take size := by
      funext i
      simp [Function.comp, Nat.succ_mul, Nat.add_comm]
    have h2 : (l.drop size).length ≤ size * n := by
      rw [List.length_drop]
      have hms : size * (n + 1) = size * n + size := Nat.mul_succ size n
      omega
    rw [h1, ih (l.drop size) h2]
    simp

/-- C2: for every list of items, page number `p ≥ 1` and positive page size,
the pagination function returns the slice
`[(p-1)*size, (p-1)*size + size)` of the items, hence at most `size` items,
and concatenating the pages for `p = 1 .. ceil(len/size)` reconstructs the
list exactly, in order. -/
theorem c2_pagination {α : Type} (items : List α) (p size : Nat)
    (hp : 1 ≤ p) (hs : 0 < size) :
    paged items p size = (items.drop ((p - 1) * size)).take size ∧
    (paged items p size).length ≤ size ∧
    ((List.range ((items.length + size - 1) / size)).map
        (fun i => paged items (i + 1) size)).flatten = items := by
  refine ⟨rfl, List.length_take_le _ _, ?_⟩
  have heq : (fun i => paged items (i + 1) size) =
      fun i => (items.drop (i * size)).take size := by
    funext i
    simp [paged]
  rw [heq]
  apply pages_flatten
  have h := Nat.div_add_mod (items.length + size - 1) size
  have hm := Nat.mod_lt (items.length + size - 1) hs
  generalize hr : (items.length + size - 1) % size = r at h hm
  generalize hq : size * ((items.length + size - 1) / size) = m at h ⊢
  omega

/-- Witness for C2 at a concrete input: seven items, page 2, page size 5. -/
theorem c2_pagination_witness :
    paged (List.range 7) 2 pageSize =
      ((List.range 7).drop ((2 - 1) * pageSize)).take pageSize ∧
    (paged (List.range 7) 2 pageSize).length ≤ pageSize ∧
    ((List.range (((List.range 7).length + pageSize - 1) / pageSize)).map
        (fun i => paged (List.range 7) (i + 1) pageSize)).flatten =
      List.range 7 :=
  c2_pagination (List.range 7) 2 pageSize (by decide) (by decide)

/-- C9: the page slice is total for every page number `p ≥ 1`: when the
window starts at or beyond the end of the list it returns `[]`, and when the
list ends before the window does it returns the remaining tail; it is a
total function, never an out-of-bounds access. -/
theorem c9_paged_total {α : Type} (items : List α) (p size : Nat)
    (hp : 1 ≤ p) :
    (items.length ≤ (p - 1) * size → paged items p size = []) ∧
    (items.length ≤ p * size →
      paged items p size = items.drop ((p - 1) * size)) := by
  constructor
  · intro h
    unfold paged
    rw [List.drop_eq_nil_of_le h]
    exact List.take_nil
  · intro h
    unfold paged
    apply List.take_of_length_le
    rw [List.length_drop]
    obtain ⟨q, rfl⟩ : ∃ q, p = q + 1 := ⟨p - 1, (Nat.succ_pred_eq_of_pos hp).symm⟩
    have hms : (q + 1) * size = q * size + size := Nat.succ_mul q size
    simp only [Nat.add_sub_cancel]
    omega

/-- Witness for C9 at a concrete input: three items, page 9, page size 5
(start beyond the end), and page 1 of a 3-item list (tail shorter than a
full page). -/
theorem c9_paged_total_witness :
    ((List.range 3).length ≤ (9 - 1) * pageSize →
      paged (List.range 3) 9 pageSize = []) ∧
    ((List.range 3).length ≤ 9 * pageSize →
      paged (List.range 3) 9 pageSize = (List.range 3).drop ((9 - 1) * pageSize)) :=
  c9_paged_total (List.range 3) 9 pageSize (by decide)

theorem updateById_spec {α : Type} (key : α → List Char) (l : List α)
    (id : List Char) (next : α)
    (hmem : ∃ r ∈ l, key r = id) :
    (l.map fun r => if key r == id then next else r).length = l.length ∧
    next ∈ (l.map fun r => if key r == id then next else r) ∧
    (∀ r ∈ (l.map fun r => if key r == id then next else r),
      key r = id → r = next) ∧
    (∀ (i : Nat) (r : α), l[i]? = some r → key r ≠ id →
      (l.map fun r => if key r == id then next else r)[i]? = some r) := by
  refine ⟨List.length_map l _, ?_, ?_, ?_⟩
  · obtain ⟨r₀, hr₀, hid⟩ := hmem
    exact List.mem_map.mpr ⟨r₀, hr₀, by simp [hid]⟩
  · intro r hr hrid
    obtain ⟨a, ha, rfl⟩ := List.mem_map.mp hr
    by_cases h : key a = id
    · simp [h]
    · rw [if_neg (by simp [h])] at hrid ⊢
      exact absurd hrid h
  · intro i r hget hne
    rw [List.getElem?_map, hget]
    simp [hne]

theorem removeById_spec {α : Type} (key : α → List Char) (l : List α)
    (id : List Char) (hnodup : (l.map key).Nodup)
    (hmem : ∃ r ∈ l, key r = id) :
    (∀ r ∈ l.filter (fun r => key r != id), key r ≠ id) ∧
    (l.filter (fun r => key r != id)).length + 1 = l.length := by
  constructor
  · intro r hr
    simpa using (List.mem_filter.mp hr).2
  · induction l with
    | nil => simp at hmem
    | cons a t ih =>
      rw [List.map_cons, List.nodup_cons] at hnodup
      obtain ⟨hna, hnd⟩ := hnodup
      by_cases h : key a = id
      · have hc : (key a != id) = false := by simp [h]
        have ht : t.filter (fun r => key r != id) = t := by
          refine List.filter_eq_self.mpr (fun b hb => ?_)
          have hbne : key b ≠ id := by
            intro hbid
            exact hna (List.mem_map.mpr ⟨b, hb, hbid.trans h.symm⟩)
          simp [hbne]
        rw [List.filter_cons, hc]
        simp [ht]
      · have hc : (key a != id) = true := by simp [h]
        have hmt : ∃ r ∈ t, key r = id := by
          obtain ⟨r₀, hr₀, hrid⟩ := hmem
          rcases List.mem_cons.mp hr₀ with hra | hrt
          · exact absurd (hra ▸ hrid) h
          · exact ⟨r₀, hrt, hrid⟩
        have := ih hnd hmt
        rw [List.filter_cons, hc]
        simp only [if_pos, List.length_cons]
        omega

theorem noopById_spec {α : Type} (key : α → List Char) (l : List α)
    (id : List Char) (next : α) (habs : ∀ r ∈ l, key r ≠ id) :
    (l.map fun r => if key r == id then next else r) = l ∧
    l.filter (fun r => key r != id) = l := by
  constructor
  · have h : (l.map fun r => if key r == id then next else r) =
        l.map (fun r => r) :=
      List.map_congr_left (fun a ha => by simp [habs a ha])
    simpa using h
  · exact List.filter_eq_self.mpr (fun a ha => by simp [habs a ha])

/-- Sample Products draft used by witnesses. -/
def sampleDraftP : Products.ProductDraft :=
  ⟨"A1".toList, "Pen".toList, "c1".toList, 1000, .active⟩

/-- Sample Categories draft used by witnesses. -/
def sampleDraftC : Categories.CategoryDraft :=
  ⟨"Books".toList, [], .active⟩

/-- C3: after a successful create the collection grows by exactly one and
contains exactly one record carrying the freshly assigned unique id, whose
fields are the draft's fields (for both the Products and the Categories
screen). -/
theorem c3_add
    (rowsP : List Products.ProductRow) (dP : Products.ProductDraft)
    (idP imgP : List Char) (hfreshP : ∀ r ∈ rowsP, r.id ≠ idP)
    (rowsC : List Categories.CategoryRow) (dC : Categories.CategoryDraft)
    (idC : List Char) (hfreshC : ∀ r ∈ rowsC, r.id ≠ idC) :
    ((Products.addRow rowsP (Products.mkProduct idP dP imgP)).length =
        rowsP.length + 1 ∧
      (Products.addRow rowsP (Products.mkProduct idP dP imgP)).filter
          (fun r => r.id == idP) = [Products.mkProduct idP dP imgP]) ∧
    ((Categories.addRow rowsC (Categories.mkCategory idC dC)).length =
        rowsC.length + 1 ∧
      (Categories.addRow rowsC (Categories.mkCategory idC dC)).filter
          (fun r => r.id == idC) = [Categories.mkCategory idC dC]) := by
  refine ⟨⟨by simp [Products.addRow], ?_⟩, ⟨by simp [Categories.addRow], ?_⟩⟩
  · exact filter_append_single _ rowsP _
      (fun a ha => by simp [hfreshP a ha]) (by simp [Products.mkProduct])
  · exact filter_append_single _ rowsC _
      (fun a ha => by simp [hfreshC a ha]) (by simp [Categories.mkCategory])

/-- Witness for C3 at a concrete input: adding to the empty collection. -/
theorem c3_add_witness :
    ((Products.addRow [] (Products.mkProduct "1".toList sampleDraftP [])).length =
        List.length ([] : List Products.ProductRow) + 1 ∧
      (Products.addRow [] (Products.mkProduct "1".toList sampleDraftP [])).filter
          (fun r => r.id == "1".toList) =
        [Products.mkProduct "1".toList sampleDraftP []]) ∧
    ((Categories.addRow [] (Categories.mkCategory "2".toList sampleDraftC)).length =
        List.length ([] : List Categories.CategoryRow) + 1 ∧
      (Categories.addRow [] (Categories.mkCategory "2".toList sampleDraftC)).filter
          (fun r => r.id == "2".toList) =
        [Categories.mkCategory "2".toList sampleDraftC]) :=
  c3_add [] sampleDraftP "1".toList [] (by simp)
    [] sampleDraftC "2".toList (by simp)

/-- C4: after a successful update the collection length is unchanged, the
record with the updated id has fields exactly equal to the draft, and every
record whose id differs keeps its value and its position (for both
screens). -/
theorem c4_update
    (rowsP : List Products.ProductRow) (idP imgP : List Char)
    (dP : Products.ProductDraft) (hmemP : ∃ r ∈ rowsP, r.id = idP)
    (rowsC : List Categories.CategoryRow) (idC : List Char)
    (dC : Categories.CategoryDraft) (hmemC : ∃ r ∈ rowsC, r.id = idC) :
    ((Products.updateRow rowsP idP (Products.mkProduct idP dP imgP)).length =
        rowsP.length ∧
      Products.mkProduct idP dP imgP ∈
        Products.updateRow rowsP idP (Products.mkProduct idP dP imgP) ∧
      (∀ r ∈ Products.updateRow rowsP idP (Products.mkProduct idP dP imgP),
        r.id = idP → r = Products.mkProduct idP dP imgP) ∧
      (∀ (i : Nat) (r : Products.ProductRow), rowsP[i]? = some r → r.id ≠ idP →
        (Products.updateRow rowsP idP (Products.mkProduct idP dP imgP))[i]? =
          some r)) ∧
    ((Categories.updateRow rowsC idC (Categories.mkCategory idC dC)).length =
        rowsC.length ∧
      Categories.mkCategory idC dC ∈
        Categories.updateRow rowsC idC (Categories.mkCategory idC dC) ∧
      (∀ r ∈ Categories.updateRow rowsC idC (Categories.mkCategory idC dC),
        r.id = idC → r = Categories.mkCategory idC dC) ∧
      (∀ (i : Nat) (r : Categories.CategoryRow), rowsC[i]? = some r → r.id ≠ idC →
        (Categories.updateRow rowsC idC (Categories.mkCategory idC dC))[i]? =
          some r)) :=
  ⟨updateById_spec (fun r : Products.ProductRow => r.id) rowsP idP (Products.mkProduct idP dP imgP) hmemP,
    updateById_spec (fun r : Categories.CategoryRow => r.id) rowsC idC (Categories.mkCategory idC dC) hmemC⟩

/-- Witness for C4 at a concrete input: a one-record collection whose single
record is rewritten in place. -/
theorem c4_update_witness :
    ((Products.updateRow [Products.mkProduct "1".toList sampleDraftP []] "1".toList
          (Products.mkProduct "1".toList sampleDraftP "u".toList)).length =
        [Products.mkProduct "1".toList sampleDraftP []].length ∧
      Products.mkProduct "1".toList sampleDraftP "u".toList ∈
        Products.updateRow [Products.mkProduct "1".toList sampleDraftP []] "1".toList
          (Products.mkProduct "1".toList sampleDraftP "u".toList) ∧
      (∀ r ∈ Products.updateRow [Products.mkProduct "1".toList sampleDraftP []]
          "1".toList (Products.mkProduct "1".toList sampleDraftP "u".toList),
        r.id = "1".toList → r = Products.mkProduct "1".toList sampleDraftP "u".toList) ∧
      (∀ (i : Nat) (r : Products.ProductRow),
        [Products.mkProduct "1".toList sampleDraftP []][i]? = some r →
        r.id ≠ "1".toList →
        (Products.updateRow [Products.mkProduct "1".toList sampleDraftP []] "1".toList
            (Products.mkProduct "1".toList sampleDraftP "u".toList))[i]? = some r)) ∧
    ((Categories.updateRow [Categories.mkCategory "2".toList sampleDraftC] "2".toList
          (Categories.mkCategory "2".toList sampleDraftC)).length =
        [Categories.mkCategory "2".toList sampleDraftC].length ∧
      Categories.mkCategory "2".toList sampleDraftC ∈
        Categories.updateRow [Categories.mkCategory "2".toList sampleDraftC] "2".toList
          (Categories.mkCategory "2".toList sampleDraftC) ∧
      (∀ r ∈ Categories.updateRow [Categories.mkCategory "2".toList sampleDraftC]
          "2".toList (Categories.mkCategory "2".toList sampleDraftC),
        r.id = "2".toList → r = Categories.mkCategory "2".toList sampleDraftC) ∧
      (∀ (i : Nat) (r : Categories.CategoryRow),
        [Categories.mkCategory "2".toList sampleDraftC][i]? = some r →
        r.id ≠ "2".toList →
        (Categories.updateRow [Categories.mkCategory "2".toList sampleDraftC]
            "2".toList (Categories.mkCategory "2".toList sampleDraftC))[i]? =
          some r)) :=
  c4_update [Products.mkProduct "1".toList sampleDraftP []] "1".toList "u".toList
    sampleDraftP ⟨Products.mkProduct "1".toList sampleDraftP [], by simp, rfl⟩
    [Categories.mkCategory "2".toList sampleDraftC] "2".toList sampleDraftC
    ⟨Categories.mkCategory "2".toList sampleDraftC, by simp, rfl⟩

/-- C5: after a successful delete, under the invariant that ids are unique
within the collection, no record with the deleted id remains and the length
decreases by exactly 1 (for both screens). -/
theorem c5_remove
    (rowsP : List Products.ProductRow) (idP : List Char)
    (hnodupP : (rowsP.map (fun r => r.id)).Nodup)
    (hmemP : ∃ r ∈ rowsP, r.id = idP)
    (rowsC : List Categories.CategoryRow) (idC : List Char)
    (hnodupC : (rowsC.map (fun r => r.id)).Nodup)
    (hmemC : ∃ r ∈ rowsC, r.id = idC) :
    ((∀ r ∈ Products.removeRow rowsP idP, r.id ≠ idP) ∧
      (Products.removeRow rowsP idP).length + 1 = rowsP.length) ∧
    ((∀ r ∈ Categories.removeRow rowsC idC, r.id ≠ idC) ∧
      (Categories.removeRow rowsC idC).length + 1 = rowsC.length) :=
  ⟨removeById_spec (fun r : Products.ProductRow => r.id) rowsP idP hnodupP hmemP,
    removeById_spec (fun r : Categories.CategoryRow => r.id) rowsC idC hnodupC hmemC⟩

/-- Witness for C5 at a concrete input: deleting the only record of a
one-record collection. -/
theorem c5_remove_witness :
    ((∀ r ∈ Products.removeRow [Products.mkProduct "1".toList sampleDraftP []]
        "1".toList, r.id ≠ "1".toList) ∧
      (Products.removeRow [Products.mkProduct "1".toList sampleDraftP []]
          "1".toList).length + 1 =
        [Products.mkProduct "1".toList sampleDraftP []].length) ∧
    ((∀ r ∈ Categories.removeRow [Categories.mkCategory "2".toList sampleDraftC]
        "2".toList, r.id ≠ "2".toList) ∧
      (Categories.removeRow [Categories.mkCategory "2".toList sampleDraftC]
          "2".toList).length + 1 =
        [Categories.mkCategory "2".toList sampleDraftC].length) :=
  c5_remove [Products.mkProduct "1".toList sampleDraftP []] "1".toList
    (by simp) ⟨Products.mkProduct "1".toList sampleDraftP [], by simp, rfl⟩
    [Categories.mkCategory "2".toList sampleDraftC] "2".toList
    (by simp) ⟨Categories.mkCategory "2".toList sampleDraftC, by simp, rfl⟩

/-- C10: when no record carries the given id, the local reconciliations of
update (per-element replacement) and of delete (filter) leave the collection
exactly unchanged (for both screens). -/
theorem c10_absent_id_noop
    (rowsP : List Products.ProductRow) (idP : List Char)
    (nextP : Products.ProductRow) (habsP : ∀ r ∈ rowsP, r.id ≠ idP)
    (rowsC : List Categories.CategoryRow) (idC : List Char)
    (nextC : Categories.CategoryRow) (habsC : ∀ r ∈ rowsC, r.id ≠ idC) :
    (Products.updateRow rowsP idP nextP = rowsP ∧
      Products.removeRow rowsP idP = rowsP) ∧
    (Categories.updateRow rowsC idC nextC = rowsC ∧
      Categories.removeRow rowsC idC = rowsC) :=
  ⟨noopById_spec (fun r : Products.ProductRow => r.id) rowsP idP nextP habsP,
    noopById_spec (fun r : Categories.CategoryRow => r.id) rowsC idC nextC habsC⟩

/-- Witness for C10 at a concrete input: a one-record collection and an id
it does not contain. -/
theorem c10_absent_id_noop_witness :
    (Products.updateRow [Products.mkProduct "1".toList sampleDraftP []] "9".toList
        (Products.mkProduct "9".toList sampleDraftP []) =
      [Products.mkProduct "1".toList sampleDraftP []] ∧
      Products.removeRow [Products.mkProduct "1".toList sampleDraftP []] "9".toList =
        [Products.mkProduct "1".toList sampleDraftP []]) ∧
    (Categories.updateRow [Categories.mkCategory "2".toList sampleDraftC] "9".toList
        (Categories.mkCategory "9".toList sampleDraftC) =
      [Categories.mkCategory "2".toList sampleDraftC] ∧
      Categories.removeRow [Categories.mkCategory "2".toList sampleDraftC]
          "9".toList =
        [Categories.mkCategory "2".toList sampleDraftC]) :=
  c10_absent_id_noop [Products.mkProduct "1".toList sampleDraftP []] "9".toList
    (Products.mkProduct "9".toList sampleDraftP []) (by decide)
    [Categories.mkCategory "2".toList sampleDraftC] "9".toList
    (Categories.mkCategory "9".toList sampleDraftC) (by decide)

namespace Products

/-- Modelled from the spec: the antd `Form` of the Products modal calls
`onFinish` (`onSubmit`) only after its declared field rules pass
("Field-level validation (client-side, pre-submit)"); the rules declared at
lines 254-313 make `code`, `name`, `category`, `price` and `status`
required.  At the draft's TypeScript type `price` and `status` are always
present, so the required checks that can fail are the three string
fields. -/
def formRulesPass (values : ProductDraft) : Bool :=
  !values.code.isEmpty && !values.name.isEmpty && !values.category.isEmpty

/-- One create-submission attempt of the Products modal: when the rules
pass, `onSubmit` runs its create branch (lines 165-170) — the POST request
carrying the new record is issued (first component) and on success the
collection is reconciled by `addRow`; when a rule fails, `onFinish` is never
invoked, so no request is issued and the collection is untouched. -/
def submitCreate (rows : List ProductRow) (values : ProductDraft)
    (newId imageUrl : List Char) : Option ProductRow × List ProductRow :=
  if formRulesPass values then
    (some (mkProduct newId values imageUrl),
      addRow rows (mkProduct newId values imageUrl))
  else (none, rows)

/-- Result of the Cloudinary POST awaited in `handleUploadToCloudinary`
(line 184): either a response carrying `secure_url`, or a thrown error. -/
inductive UploadOutcome : Type where
  | ok (secureUrl : List Char) : UploadOutcome
  | err (e : List Char) : UploadOutcome
deriving DecidableEq, Repr

/-- The modal-local state the upload sub-flow can touch: the staged image
URL (`imageUrl`), the diagnostic log (`console.error` output) and whether
the form has been submitted. -/
structure UploadState : Type where
  imageUrl : List Char
  errorLog : List (List Char)
  submitted : Bool
deriving DecidableEq, Repr

/-- The `console.error("Upload failed:", err)` log line (line 187). -/
def uploadFailMsg (e : List Char) : List Char := "Upload failed:".toList ++ e

/-- The completion of `handleUploadToCloudinary` (lines 173-191): on success
`setImageUrl(res.data.secure_url)`; on failure only `console.error(...)`,
the staged URL untouched; either way the handler returns `false` (second
component), which stops the antd `Upload` component from doing anything
further — in particular the sub-flow never submits the form. -/
def handleUploadToCloudinary (res : UploadOutcome) (s : UploadState) :
    UploadState × Bool :=
  match res with
  | .ok u => ({ s with imageUrl := u }, false)
  | .err e => ({ s with errorLog := s.errorLog ++ [uploadFailMsg e] }, false)

/-- The view state of the Products screen: `search`, `statusFilter`, `page`
(lines 37-39). -/
structure ViewState : Type where
  search : List Char
  statusFilter : Option ProductStatus
  page : Nat
deriving DecidableEq, Repr

/-- The search input handler (line 218):
`onChange={e => setSearch(e.target.value)}`. -/
def onSearchChange (s : ViewState) (v : List Char) : ViewState :=
  { s with search := v }

/-- The status select handler (line 208):
`onChange={v => setStatusFilter(v || "")}`; a cleared select gives
`undefined`, stored as the empty filter (both modelled `none`). -/
def onStatusChange (s : ViewState) (v : Option ProductStatus) : ViewState :=
  { s with statusFilter := v }

end Products

namespace Categories

/-- Modelled from the spec: the antd `Form` of the Categories modal calls
`onFinish` only after its declared rules pass; the rules at lines 504-522
make `name` and `status` required (`description` is optional), and `status`
is always present at the draft's type. -/
def formRulesPass (values : CategoryDraft) : Bool :=
  !values.name.isEmpty

/-- One create-submission attempt of the Categories modal (create branch of
`onSubmit`, lines 439-444), gated by the form rules as in the Products
screen. -/
def submitCreate (rows : List CategoryRow) (values : CategoryDraft)
    (newId : List Char) : Option CategoryRow × List CategoryRow :=
  if formRulesPass values then
    (some (mkCategory newId values), addRow rows (mkCategory newId values))
  else (none, rows)

/-- The view state of the Categories screen (lines 351-353). -/
structure ViewState : Type where
  search : List Char
  statusFilter : Option CategoryStatus
  page : Nat
deriving DecidableEq, Repr

/-- The search input handler (line 472). -/
def onSearchChange (s : ViewState) (v : List Char) : ViewState :=
  { s with search := v }

/-- The status select handler (line 462). -/
def onStatusChange (s : ViewState) (v : Option CategoryStatus) : ViewState :=
  { s with statusFilter := v }

end Categories

/-- C6: a create submission with an empty required name field is rejected
before any network call is issued, and the collection is not mutated (both
screens). -/
theorem c6_empty_name_rejected
    (rowsP : List Products.ProductRow) (vP : Products.ProductDraft)
    (idP imgP : List Char) (hP : vP.name = [])
    (rowsC : List Categories.CategoryRow) (vC : Categories.CategoryDraft)
    (idC : List Char) (hC : vC.name = []) :
    Products.submitCreate rowsP vP idP imgP = (none, rowsP) ∧
    Categories.submitCreate rowsC vC idC = (none, rowsC) := by
  constructor
  · simp [Products.submitCreate, Products.formRulesPass, hP]
  · simp [Categories.submitCreate, Categories.formRulesPass, hC]

/-- Witness for C6 at a concrete input: drafts whose name is empty. -/
theorem c6_empty_name_rejected_witness :
    Products.submitCreate [] ⟨"A1".toList, [], "c1".toList, 1000, .active⟩
        "1".toList [] = (none, []) ∧
    Categories.submitCreate [] ⟨[], [], .active⟩ "2".toList = (none, []) :=
  c6_empty_name_rejected [] ⟨"A1".toList, [], "c1".toList, 1000, .active⟩
    "1".toList [] rfl [] ⟨[], [], .active⟩ "2".toList rfl

/-- C7: the image-upload sub-flow stages `secure_url` on success; on failure
it logs the error and leaves the staged image URL unchanged; in every case
it leaves the submitted flag alone and returns `false`, never auto-submitting
the form. -/
theorem c7_upload_subflow (s : Products.UploadState) (u e : List Char) :
    (Products.handleUploadToCloudinary (.ok u) s).1.imageUrl = u ∧
    (Products.handleUploadToCloudinary (.err e) s).1.imageUrl = s.imageUrl ∧
    (Products.handleUploadToCloudinary (.err e) s).1.errorLog =
      s.errorLog ++ [Products.uploadFailMsg e] ∧
    (∀ res, (Products.handleUploadToCloudinary res s).1.submitted =
        s.submitted ∧
      (Products.handleUploadToCloudinary res s).2 = false) := by
  refine ⟨rfl, rfl, rfl, fun res => ?_⟩
  cases res <;> exact ⟨rfl, rfl⟩

/-- C8: changing the search text or the status filter mutates only
`search` or `statusFilter` respectively and leaves `page` (and the other
filter input) unchanged, on both screens. -/
theorem c8_page_not_reset
    (sP : Products.ViewState) (vP : List Char)
    (fP : Option Products.ProductStatus)
    (sC : Categories.ViewState) (vC : List Char)
    (fC : Option Categories.CategoryStatus) :
    ((Products.onSearchChange sP vP).page = sP.page ∧
      (Products.onSearchChange sP vP).statusFilter = sP.statusFilter ∧
      (Products.onSearchChange sP vP).search = vP ∧
      (Products.onStatusChange sP fP).page = sP.page ∧
      (Products.onStatusChange sP fP).search = sP.search ∧
      (Products.onStatusChange sP fP).statusFilter = fP) ∧
    ((Categories.onSearchChange sC vC).page = sC.page ∧
      (Categories.onSearchChange sC vC).statusFilter = sC.statusFilter ∧
      (Categories.onSearchChange sC vC).search = vC ∧
      (Categories.onStatusChange sC fC).page = sC.page ∧
      (Categories.onStatusChange sC fC).search = sC.search ∧
      (Categories.onStatusChange sC fC).statusFilter = fC) :=
  ⟨⟨rfl, rfl, rfl, rfl, rfl, rfl⟩, ⟨rfl, rfl, rfl, rfl, rfl, rfl⟩⟩

/-- Scenario from the spec: searching "pen" in the two-record collection
shows only the Pen record. -/
theorem scenario_search_pen :
    Products.filtered
      [⟨"1".toList, "A1".toList, "Pen".toList, "c".toList, 1, [], .active⟩,
       ⟨"2".toList, "B1".toList, "Book".toList, "c".toList, 2, [], .inactive⟩]
      "pen".toList none =
      [⟨"1".toList, "A1".toList, "Pen".toList, "c".toList, 1, [], .active⟩] := by
  decide

/-- Scenario from the spec: the inactive status filter with an empty search
shows only the Book record. -/
theorem scenario_status_inactive :
    Products.filtered
      [⟨"1".toList, "A1".toList, "Pen".toList, "c".toList, 1, [], .active⟩,
       ⟨"2".toList, "B1".toList, "Book".toList, "c".toList, 2, [], .inactive⟩]
      [] (some .inactive) =
      [⟨"2".toList, "B1".toList, "Book".toList, "c".toList, 2, [], .inactive⟩] := by
  decide

/-- Scenario from the spec: page 2 of a 7-item list at page size 5 holds
exactly the last two items. -/
theorem scenario_page_two : paged (List.range 7) 2 5 = [5, 6] := by decide
